import Mathlib

/-!
The logging facade of mg-transport-core.

A shallow embedding of the four source files

* `core/logger.go` (package `core`): the go-logging based `Logger` with its optional mutex;
* `core/logger/mg_transport_client_adapter.go` (package `logger`): the MG client adapter;
* `core/logger/gin.go` (package `logger`): the Gin request middleware;
* `core/util/testutil/json_record_scanner.go` (package `testutil`): the JSON record scanner;

followed by the properties established about them.

Conventions. A Go `interface{}` value is a `GoValue`. A run-time panic is an `Except.error`.
Functions of the Go standard library and of third-party packages (`fmt.Sprint`, `fmt.Sprintf`,
`time.Time.Format`, `json.Unmarshal`) are taken as parameters, so every general statement holds
for whatever these functions compute. The `bufio.Scanner` is embedded with its limit on the
length of a line.
-/

set_option autoImplicit false

/-- A Go `interface{}` value, as far as the logging code can be handed one. -/
inductive GoValue where
  | nil
  | str (s : String)
  | bytes (b : List Nat)
  | int (n : Int)
  | bool (b : Bool)
  | duration (d : Int)
  deriving DecidableEq

/-- A run-time panic of the Go program. -/
inductive GoPanic where
  /-- Indexing a slice of length `length` at `index`. -/
  | indexOutOfRange (index length : Nat)
  /-- Dereferencing a nil pointer. -/
  | nilDereference
  /-- Looking up a key with `gin.Context.MustGet` that was never set. -/
  | keyDoesNotExist (key : String)
  /-- A failed type assertion `x.(T)`. -/
  | typeAssertion
  /-- Any other panic, raised by code outside this repository. -/
  | other (text : String)
  deriving DecidableEq

namespace logger

/-! ## Package `logger`: structured fields, the logger interface -/

/-- The payload of a `zap.Field`. -/
inductive FieldValue where
  | string (s : String)
  | int (n : Int)
  | any (v : GoValue)
  deriving DecidableEq

/-- A `zap.Field`: a named key/value pair attached to a log line. -/
structure Field where
  key : String
  value : FieldValue
  deriving DecidableEq

/-- The constructor `zap.String(key, val)`. -/
def zapString (key val : String) : Field := ⟨key, .string val⟩

/-- The constructor `zap.Int(key, val)`. -/
def zapInt (key : String) (val : Int) : Field := ⟨key, .int val⟩

/-- The constructor `zap.Any(key, val)`. -/
def zapAny (key : String) (val : GoValue) : Field := ⟨key, .any val⟩

/-- Modelled from the spec: the constant `HTTPMethodAttr` is declared in a file of package
`logger` that is not among the sources; the spec names the adapter's request fields
`method`, `url`, `token`, `body`. -/
def HTTPMethodAttr : String := "method"

/-- Modelled from the spec: the helper `Body` is declared in a file of package `logger` that is
not among the sources; the spec says the body "is logged as a dedicated "body" field using a
redaction/size-safe representation". The field is named `body`; its payload is `represent val`,
where `represent`, the representation the absent helper computes from the value it is given, is
a parameter. -/
def Body (represent : GoValue → FieldValue) (val : GoValue) : Field := ⟨"body", represent val⟩

/-- Severity of an emitted line. -/
inductive Level where
  | debug
  | info
  deriving DecidableEq

/-- Modelled from the spec: the interface `Logger` of package `logger` (`With`, `Debug`, `Info`)
is declared in a file that is not among the sources. The spec describes a derived logger as
"base logger + correlation identifier as a structured field": a logger value is the name of its
base together with the structured fields attached to it so far. -/
structure Logger where
  base : String
  fields : List Field
  deriving DecidableEq

/-- One emitted log event: who wrote it, at which level, with which message and fields. -/
structure Entry where
  level : Level
  logger : Logger
  msg : String
  fields : List Field
  deriving DecidableEq

/-- Modelled from the spec: `Logger.With(fields...)` of the absent interface, "a new logger value
= base logger + ... structured field". -/
def Logger.With (l : Logger) (fields : List Field) : Logger :=
  { l with fields := l.fields ++ fields }

/-- Modelled from the spec: `Logger.Debug(msg, fields...)` of the absent interface, "write a line
at level L with fields F": one event is appended to the sink. -/
def Logger.Debug (l : Logger) (sink : List Entry) (msg : String) (fields : List Field) :
    List Entry :=
  sink ++ [⟨.debug, l, msg, fields⟩]

/-- Modelled from the spec: `Logger.Info(msg, fields...)` of the absent interface, "write a line
at level L with fields F": one event is appended to the sink. -/
def Logger.Info (l : Logger) (sink : List Entry) (msg : String) (fields : List Field) :
    List Entry :=
  sink ++ [⟨.info, l, msg, fields⟩]

/-! ## `mg_transport_client_adapter.go` -/

def mgDebugLogReq : String := "MG TRANSPORT API Request: %s %s %s %v"

def mgDebugLogReqFile : String := "MG TRANSPORT API Request: %s %s %s [file data]"

def mgDebugLogResp : String := "MG TRANSPORT API Response: %s"

structure mgTransportClientAdapter where
  log : Logger
  deriving DecidableEq

/-- Go `MGTransportClientAdapter` constructs the adapter. -/
def MGTransportClientAdapter (log : Logger) : mgTransportClientAdapter := ⟨log⟩

/-- The statements of `case mgDebugLogReq:` in `Debugf`. The case is entered either directly,
with `body` still nil, or by `fallthrough` from `case mgDebugLogReqFile:`, with `body` already
assigned. -/
def mgTransportClientAdapter.requestCase (Sprint : GoValue → String)
    (represent : GoValue → FieldValue)
    (m : mgTransportClientAdapter) (sink : List Entry) (args : List GoValue) (body : GoValue) :
    List Entry :=
  let method : String := ""
  let uri : String := ""
  let token : String := ""
  let method := if h : 0 < args.length then Sprint args[0] else method
  let uri := if h : 1 < args.length then Sprint args[1] else uri
  let token := if h : 2 < args.length then Sprint args[2] else token
  let body := if h : 3 < args.length then args[3] else body
  m.log.Debug sink "MG TRANSPORT API Request"
    [zapString HTTPMethodAttr method, zapString "url" uri, zapString "token" token,
      Body represent body]

/-- Go `Debugf` writes a message with Debug level. `Sprint` and `Sprintf` are `fmt.Sprint` (of one
value) and `fmt.Sprintf`, `represent` is the representation that `Body` gives a value. The result
is the sink after the call, or the panic the call raised. -/
def mgTransportClientAdapter.Debugf (Sprint : GoValue → String)
    (Sprintf : String → List GoValue → String) (represent : GoValue → FieldValue)
    (m : mgTransportClientAdapter) (sink : List Entry) (msg : String) (args : List GoValue) :
    Except GoPanic (List Entry) :=
  let body : GoValue := .nil
  if msg = mgDebugLogReqFile then
    let body := GoValue.str "[file data]"
    .ok (m.requestCase Sprint represent sink args body)
  else if msg = mgDebugLogReq then
    .ok (m.requestCase Sprint represent sink args body)
  else if msg = mgDebugLogResp then
    if h : 0 < args.length then
      .ok (m.log.Debug sink "MG TRANSPORT API Response" [Body represent args[0]])
    else
      .error (.indexOutOfRange 0 args.length)
  else
    .ok (m.log.Debug sink (Sprintf msg args) [])

/-- Go `Printf` is the `v1.BasicLogger` implementation. -/
def mgTransportClientAdapter.Printf (Sprint : GoValue → String)
    (Sprintf : String → List GoValue → String) (represent : GoValue → FieldValue)
    (m : mgTransportClientAdapter) (sink : List Entry) (msg : String) (args : List GoValue) :
    Except GoPanic (List Entry) :=
  m.Debugf Sprint Sprintf represent sink msg args

/-! ## `gin.go` -/

/-- A `time.Time` as `time.Now` returns it: a wall-clock reading and a monotonic-clock reading,
both in nanoseconds. -/
structure Time where
  wall : Int
  mono : Int
  deriving DecidableEq

/-- Conversion of an integer to `int64` (two's complement wrap-around). -/
def wrapInt64 (x : Int) : Int := (x + 2 ^ 63) % 2 ^ 64 - 2 ^ 63

/-- The largest `time.Duration`. -/
def maxDuration : Int := 2 ^ 63 - 1

/-- The smallest `time.Duration`. -/
def minDuration : Int := -(2 ^ 63)

/-- Go `time.Time.Sub` on two instants that carry a monotonic reading: the `int64` difference of
the readings in nanoseconds, replaced by the largest or smallest duration when it overflows. -/
def Time.Sub (t u : Time) : Int :=
  let d := wrapInt64 (t.mono - u.mono)
  if d < 0 ∧ t.mono > u.mono then maxDuration
  else if d > 0 ∧ t.mono < u.mono then minDuration
  else d

/-- The constant `time.Millisecond`, a `time.Duration` in nanoseconds. -/
def Millisecond : Int := 1000000

/-- The parts of `http.Request` that the middleware reads. -/
structure Request where
  Path : String
  RawQuery : String
  Method : String
  deriving DecidableEq

/-- A value stored in `gin.Context.Keys`. -/
inductive KeyValue where
  | str (s : String)
  | logger (l : Logger)
  | value (v : GoValue)
  deriving DecidableEq

/-- The parts of `gin.Context` that the middleware and `MustGet` use: the request, the key/value
store, the client address reported by `ClientIP` and the byte count reported by
`Writer.Size`. -/
structure Context where
  Request : Request
  Keys : List (String × KeyValue)
  ClientIP : String
  WriterSize : Int
  deriving DecidableEq

/-- Go `gin.Context.Set`: store `value` under `key`, replacing what was stored there. -/
def Context.Set (c : Context) (key : String) (value : KeyValue) : Context :=
  { c with Keys := (key, value) :: c.Keys.filter (fun kv => kv.1 ≠ key) }

/-- Go `gin.Context.Get`: the value stored under `key`, if any. -/
def Context.Get (c : Context) (key : String) : Option KeyValue :=
  (c.Keys.find? (fun kv => kv.1 = key)).map (fun kv => kv.2)

/-- Go `gin.Context.MustGet`: the value stored under `key`; panics when there is none. -/
def Context.MustGet (c : Context) (key : String) : Except GoPanic KeyValue :=
  match c.Get key with
  | some v => .ok v
  | none => .error (.keyDoesNotExist key)

/-- What the middleware reads and writes outside the request context: the clock that `time.Now`
reads and the sink of emitted log events. -/
structure World where
  now : Time
  sink : List Entry
  deriving DecidableEq

/-- Go `GinMiddleware` constructs the Gin middleware; this is the handler function it returns,
applied to the context `c` in the world `w`.

Parameters standing for declarations that are not among the sources: the constants `HandlerAttr`
and `StreamIDAttr`, the field helper `StreamID`, `format` for `time.Time.Format(time.RFC3339)`,
and `streamID` for the value `generateStreamID()` returns for this request. `Next` is
`c.Next()`, the rest of the handler chain: it returns with a new context and world, or panics. -/
def GinMiddleware (HandlerAttr StreamIDAttr : String) (StreamID : String → Field)
    (format : Time → String) (streamID : String) (log : Logger)
    (Next : Context → World → Except GoPanic (Context × World))
    (c : Context) (w : World) : Except GoPanic (Context × World) :=
  let start := w.now
  let path := c.Request.Path
  let raw := c.Request.RawQuery
  let log := log.With [StreamID streamID]
  let c := c.Set StreamIDAttr (.str streamID)
  let c := c.Set "logger" (.logger log)
  match Next c w with
  | .error p => .error p
  | .ok (c, w) =>
    let end_ := w.now
    let path := if raw ≠ "" then path ++ "?" ++ raw else path
    let sink := log.Info w.sink "request"
      [zapString HandlerAttr "GIN",
       zapString "startTime" (format start),
       zapString "endTime" (format end_),
       zapAny "latency" (.duration (Int.tdiv (end_.Sub start) Millisecond)),
       zapString "remoteAddress" c.ClientIP,
       zapString HTTPMethodAttr c.Request.Method,
       zapString "path" path,
       zapInt "bodySize" c.WriterSize]
    .ok (c, { w with sink := sink })

/-- Go `MustGet` returns the logger stored on the context: `c.MustGet("logger").(Logger)`. -/
def MustGet (c : Context) : Except GoPanic Logger :=
  match c.MustGet "logger" with
  | .error p => .error p
  | .ok (.logger l) => .ok l
  | .ok _ => .error .typeAssertion

end logger

namespace core

/-! ## `logger.go` (package `core`) -/

/-- The sixteen methods of `LoggerInterface`. -/
inductive Op where
  | Fatal
  | Fatalf
  | Panic
  | Panicf
  | Critical
  | Criticalf
  | Error
  | Errorf
  | Warning
  | Warningf
  | Notice
  | Noticef
  | Info
  | Infof
  | Debug
  | Debugf
  deriving DecidableEq

/-- The `Logger` component: `logger` is the handle of the underlying go-logging logger (its
module name), `mutex` the address of the `sync.RWMutex`, `none` for the nil pointer. -/
structure Logger where
  logger : String
  mutex : Option Nat
  deriving DecidableEq

/-- What a run of the program does to the objects outside the `Logger` value, in order. -/
inductive Event where
  /-- Go `Lock()` on the mutex at this address returned. -/
  | Lock (mutex : Nat)
  /-- Go `Unlock()` on the mutex at this address returned. -/
  | Unlock (mutex : Nat)
  /-- The method `op` of the go-logging logger `logger` was called: `format` is the format
  string of the `f` forms, `args` the variadic values. -/
  | call (logger : String) (op : Op) (format : Option String) (args : List GoValue)
  deriving DecidableEq

/-- How a call ends. -/
inductive Outcome where
  /-- The call returned to its caller. -/
  | returned
  /-- The call is unwinding with a panic. -/
  | panicked
  /-- The process was terminated by `os.Exit(code)`; deferred calls do not run. -/
  | exited (code : Int)
  /-- The calling goroutine waits for a lock that is held. -/
  | blocked
  /-- The runtime aborted the process (`fatal error`). -/
  | fatalError
  deriving DecidableEq

/-- The program state: the allocated `Logger` objects (a `*Logger` is an index into `loggers`),
the allocated mutexes (a `*sync.RWMutex` is an index into `mutexes`; the entry says whether the
mutex is locked for writing, the only mode `Logger` uses), and the events so far. -/
structure State where
  loggers : List Logger
  mutexes : List Bool
  trace : List Event
  deriving DecidableEq

/-- Go `Exclusive` makes logger goroutine-safe. The result is the new state and the returned
pointer; a nil receiver panics at `l.mutex`. -/
def Logger.Exclusive (st : State) (l : Nat) : Except GoPanic (State × Nat) :=
  match st.loggers[l]? with
  | none => .error .nilDereference
  | some obj =>
    if obj.mutex = none then
      let m := st.mutexes.length
      let st := { st with mutexes := st.mutexes ++ [false] }
      let st := { st with loggers := st.loggers.set l { obj with mutex := some m } }
      .ok (st, l)
    else
      .ok (st, l)

/-- Go `lock` locks logger. -/
def Logger.lock (st : State) (l : Nat) : State × Outcome :=
  match st.loggers[l]? with
  | none => (st, .panicked)
  | some obj =>
    match obj.mutex with
    | none => (st, .returned)
    | some m =>
      match st.mutexes[m]? with
      | some false =>
        ({ st with mutexes := st.mutexes.set m true, trace := st.trace ++ [.Lock m] }, .returned)
      | some true => (st, .blocked)
      | none => (st, .panicked)

/-- Go `unlock` unlocks logger. Unlocking a mutex that is not locked is a fatal error of the
runtime. -/
def Logger.unlock (st : State) (l : Nat) : State × Outcome :=
  match st.loggers[l]? with
  | none => (st, .panicked)
  | some obj =>
    match obj.mutex with
    | none => (st, .returned)
    | some m =>
      match st.mutexes[m]? with
      | some true =>
        ({ st with mutexes := st.mutexes.set m false, trace := st.trace ++ [.Unlock m] },
          .returned)
      | some false => (st, .fatalError)
      | none => (st, .panicked)

/-- The call `l.logger.Op(...)` into go-logging. As the comments on `Fatal`, `Fatalf`, `Panic`
and `Panicf` say, the first two end in `os.Exit(1)` and the other two in `panic()`; every other
method returns. -/
def loggingCall (st : State) (l : Nat) (op : Op) (format : Option String)
    (args : List GoValue) : State × Outcome :=
  match st.loggers[l]? with
  | none => (st, .panicked)
  | some obj =>
    ({ st with trace := st.trace ++ [.call obj.logger op format args] },
      match op with
      | .Fatal | .Fatalf => .exited 1
      | .Panic | .Panicf => .panicked
      | _ => .returned)

/-- The format string that the method `op` passes on: the `f` forms pass theirs, the other
forms have none. -/
def Op.formatArg (op : Op) (format : String) : Option String :=
  match op with
  | .Fatalf | .Panicf | .Criticalf | .Errorf | .Warningf | .Noticef | .Infof | .Debugf =>
    some format
  | _ => none

/-- The shape shared by the sixteen methods: `l.lock()`, `defer l.unlock()`, then the body.
The deferred call runs when the body returns and when it panics (the panic then goes on
unwinding); it does not run when the process has exited or the body never comes back. -/
def Logger.locked (st : State) (l : Nat) (body : State → State × Outcome) : State × Outcome :=
  match Logger.lock st l with
  | (st, .returned) =>
    match body st with
    | (st, .returned) => Logger.unlock st l
    | (st, .panicked) =>
      match Logger.unlock st l with
      | (st, .returned) => (st, .panicked)
      | r => r
    | r => r
  | r => r

/-- Go `Fatal` is equivalent to `l.Critical(fmt.Sprint())` followed by a call to `os.Exit(1)`. -/
def Logger.Fatal (st : State) (l : Nat) (args : List GoValue) : State × Outcome :=
  Logger.locked st l (fun st => loggingCall st l .Fatal none args)

/-- Go `Fatalf` is equivalent to `l.Critical` followed by a call to `os.Exit(1)`. -/
def Logger.Fatalf (st : State) (l : Nat) (format : String) (args : List GoValue) : State × Outcome :=
  Logger.locked st l (fun st => loggingCall st l .Fatalf (some format) args)

/-- Go `Panic` is equivalent to `l.Critical(fmt.Sprint())` followed by a call to `panic()`. -/
def Logger.Panic (st : State) (l : Nat) (args : List GoValue) : State × Outcome :=
  Logger.locked st l (fun st => loggingCall st l .Panic none args)

/-- Go `Panicf` is equivalent to `l.Critical` followed by a call to `panic()`. -/
def Logger.Panicf (st : State) (l : Nat) (format : String) (args : List GoValue) : State × Outcome :=
  Logger.locked st l (fun st => loggingCall st l .Panicf (some format) args)

/-- Go `Critical` logs a message using CRITICAL as log level. -/
def Logger.Critical (st : State) (l : Nat) (args : List GoValue) : State × Outcome :=
  Logger.locked st l (fun st => loggingCall st l .Critical none args)

/-- Go `Criticalf` logs a message using CRITICAL as log level. -/
def Logger.Criticalf (st : State) (l : Nat) (format : String) (args : List GoValue) : State × Outcome :=
  Logger.locked st l (fun st => loggingCall st l .Criticalf (some format) args)

/-- Go `Error` logs a message using ERROR as log level. -/
def Logger.Error (st : State) (l : Nat) (args : List GoValue) : State × Outcome :=
  Logger.locked st l (fun st => loggingCall st l .Error none args)

/-- Go `Errorf` logs a message using ERROR as log level. -/
def Logger.Errorf (st : State) (l : Nat) (format : String) (args : List GoValue) : State × Outcome :=
  Logger.locked st l (fun st => loggingCall st l .Errorf (some format) args)

/-- Go `Warning` logs a message using WARNING as log level. -/
def Logger.Warning (st : State) (l : Nat) (args : List GoValue) : State × Outcome :=
  Logger.locked st l (fun st => loggingCall st l .Warning none args)

/-- Go `Warningf` logs a message using WARNING as log level. -/
def Logger.Warningf (st : State) (l : Nat) (format : String) (args : List GoValue) : State × Outcome :=
  Logger.locked st l (fun st => loggingCall st l .Warningf (some format) args)

/-- Go `Notice` logs a message using NOTICE as log level. -/
def Logger.Notice (st : State) (l : Nat) (args : List GoValue) : State × Outcome :=
  Logger.locked st l (fun st => loggingCall st l .Notice none args)

/-- Go `Noticef` logs a message using NOTICE as log level. -/
def Logger.Noticef (st : State) (l : Nat) (format : String) (args : List GoValue) : State × Outcome :=
  Logger.locked st l (fun st => loggingCall st l .Noticef (some format) args)

/-- Go `Info` logs a message using INFO as log level. -/
def Logger.Info (st : State) (l : Nat) (args : List GoValue) : State × Outcome :=
  Logger.locked st l (fun st => loggingCall st l .Info none args)

/-- Go `Infof` logs a message using INFO as log level. -/
def Logger.Infof (st : State) (l : Nat) (format : String) (args : List GoValue) : State × Outcome :=
  Logger.locked st l (fun st => loggingCall st l .Infof (some format) args)

/-- Go `Debug` logs a message using DEBUG as log level. -/
def Logger.Debug (st : State) (l : Nat) (args : List GoValue) : State × Outcome :=
  Logger.locked st l (fun st => loggingCall st l .Debug none args)

/-- Go `Debugf` logs a message using DEBUG as log level. -/
def Logger.Debugf (st : State) (l : Nat) (format : String) (args : List GoValue) : State × Outcome :=
  Logger.locked st l (fun st => loggingCall st l .Debugf (some format) args)

/-- The method of `LoggerInterface` named by `op`, called on `l`; the forms without a format
string ignore `format`. -/
def Logger.invoke (op : Op) (st : State) (l : Nat) (format : String) (args : List GoValue) :
    State × Outcome :=
  match op with
  | .Fatal => Logger.Fatal st l args
  | .Fatalf => Logger.Fatalf st l format args
  | .Panic => Logger.Panic st l args
  | .Panicf => Logger.Panicf st l format args
  | .Critical => Logger.Critical st l args
  | .Criticalf => Logger.Criticalf st l format args
  | .Error => Logger.Error st l args
  | .Errorf => Logger.Errorf st l format args
  | .Warning => Logger.Warning st l args
  | .Warningf => Logger.Warningf st l format args
  | .Notice => Logger.Notice st l args
  | .Noticef => Logger.Noticef st l format args
  | .Info => Logger.Info st l args
  | .Infof => Logger.Infof st l format args
  | .Debug => Logger.Debug st l args
  | .Debugf => Logger.Debugf st l format args

end core

namespace bufio

/-! ## The `bufio.Scanner` that the record scanner reads from -/

/-- The constant `bufio.MaxScanTokenSize`: the size to which the buffer of a scanner made by
`bufio.NewScanner` may grow, 64 KiB. -/
def MaxScanTokenSize : Nat := 64 * 1024

/-- One line of the input stream. `size` is the number of bytes the scanner has to hold to see
the end of the line: the bytes of the line up to and including its newline (for a last line
without newline: its bytes and one more). `text` is the line without its terminator, the token
that `ScanLines` yields for it. `head` is the first 64 KiB of the line, which is all the scanner
ever holds of a line that does not fit its buffer. -/
structure Line (Text : Type) where
  size : Nat
  text : Text
  head : Text

/-- A `bufio.Scanner` with the default split function `ScanLines` and the default buffer, as its
caller can observe it through `Scan` and `Bytes`: `tokens` are the tokens of the calls of `Scan`
that report true before the next call that reports false; `late` is the one token that a call
of `Scan` delivers after that. A scanner that has met a line over the buffer size has recorded
`ErrTooLong` and reports false; asked again, it hands out the 64 KiB it holds as a last token and
reads no further. -/
structure Scanner (Text : Type) where
  tokens : List Text
  late : Option Text

/-- A line that fits the buffer with room to spare: its first 64 KiB are the whole line. -/
def line {Text : Type} (size : Nat) (text : Text) : Line Text := ⟨size, text, text⟩

/-- What a scanner will deliver of the lines of its reader: the lines in order as long as they
fit the buffer; the first line that does not fit ends the scan and leaves its head behind. -/
def scanTokens {Text : Type} : List (Line Text) → List Text × Option Text
  | [] => ([], none)
  | l :: rest =>
    if l.size ≤ MaxScanTokenSize then
      (l.text :: (scanTokens rest).1, (scanTokens rest).2)
    else
      ([], some l.head)

/-- Go `bufio.NewScanner` on a reader that delivers `lines` and then reports the end of input. A
reader that fails delivers the lines read so far and the scanner then behaves as at the end of
input, keeping the error for `Err`. -/
def NewScanner {Text : Type} (lines : List (Line Text)) : Scanner Text :=
  ⟨(scanTokens lines).1, (scanTokens lines).2⟩

/-- Go `bufio.Scanner.Scan`: the scanner afterwards and the token, `none` when `Scan` reports
false. -/
def Scanner.Scan {Text : Type} (s : Scanner Text) : Scanner Text × Option Text :=
  match s.tokens with
  | token :: rest => ({ s with tokens := rest }, some token)
  | [] => (⟨s.late.toList, none⟩, none)

end bufio

namespace testutil

/-! ## `json_record_scanner.go` -/

/-- A JSON value. -/
inductive JSONValue where
  | null
  | bool (b : Bool)
  | number (literal : String)
  | string (s : String)
  | array (items : List JSONValue)
  | object (members : List (String × JSONValue))

/-- Go `LogRecord`: the `null.Time` is `none` when not valid and its text otherwise, the map is
`none` when nil and otherwise lists its entries, one for each key. -/
structure LogRecord where
  LevelName : String
  DateTime : Option String
  Caller : String
  Message : String
  Handler : String
  Connection : String
  Account : String
  Context : Option (List (String × JSONValue))

/-- The zero value `LogRecord{}`. -/
def LogRecord.zero : LogRecord := ⟨"", none, "", "", "", "", "", none⟩

/-- A non-nil `error` returned by the scanner: `io.EOF`, or the error `json.Unmarshal`
returned. -/
inductive Error (E : Type) where
  | EOF
  | json (err : E)

/-- Go `JSONRecordScanner`: `r` is the `bufio.Scanner`, `e` the record that `Scan` decodes into.
The code calls `Scan` and `Bytes` on `r` and never `Err`. -/
structure JSONRecordScanner (Text : Type) where
  r : bufio.Scanner Text
  e : LogRecord

/-- Go `NewJSONRecordScanner` over a reader that delivers `lines`. -/
def NewJSONRecordScanner {Text : Type} (lines : List (bufio.Line Text)) :
    JSONRecordScanner Text :=
  { r := bufio.NewScanner lines, e := LogRecord.zero }

/-- Go `Scan`: the scanner afterwards and the returned `error` (`none` for nil).
`Unmarshal token v` is `json.Unmarshal(token, &v)`: it yields the target as the call leaves it
and the returned error. -/
def JSONRecordScanner.Scan {Text E : Type} (Unmarshal : Text → LogRecord → LogRecord × Option E)
    (s : JSONRecordScanner Text) : JSONRecordScanner Text × Option (Error E) :=
  match s.r.Scan with
  | (r, some token) =>
    let (e, err) := Unmarshal token s.e
    ({ r := r, e := e }, err.map Error.json)
  | (r, none) => ({ s with r := r }, some .EOF)

/-- The `for s.r.Scan()` loop of `ScanAll`, run on a `bufio.Scanner` with the tokens `tokens` and
the late token `late`, with `entries` collected so far: the `bufio.Scanner` afterwards, the
returned slice and the returned error. The first equation is the call of `s.r.Scan()` that
reports false, the second a call that reports true (see `scanAllLoop_eq_Scan`). -/
def JSONRecordScanner.scanAllLoop {Text E : Type}
    (Unmarshal : Text → LogRecord → LogRecord × Option E) (late : Option Text) :
    List Text → List LogRecord → bufio.Scanner Text × List LogRecord × Option (Error E)
  | [], entries => (⟨late.toList, none⟩, entries, none)
  | token :: rest, entries =>
    let entry := LogRecord.zero
    match Unmarshal token entry with
    | (_, some err) => (⟨rest, late⟩, entries, some (.json err))
    | (entry, none) => scanAllLoop Unmarshal late rest (entries ++ [entry])

/-- Go `ScanAll`: the scanner afterwards, the returned slice and the returned `error`. -/
def JSONRecordScanner.ScanAll {Text E : Type}
    (Unmarshal : Text → LogRecord → LogRecord × Option E)
    (s : JSONRecordScanner Text) : JSONRecordScanner Text × List LogRecord × Option (Error E) :=
  let entries : List LogRecord := []
  match JSONRecordScanner.scanAllLoop Unmarshal s.r.late s.r.tokens entries with
  | (r, entries, err) => ({ s with r := r }, entries, err)

/-- Go `Entry` returns the record of the scanner. -/
def JSONRecordScanner.Entry {Text : Type} (s : JSONRecordScanner Text) : LogRecord := s.e

/-! ### A model of `json.Unmarshal` for concrete inputs

The general statements hold for every `Unmarshal`. To evaluate the scanner on concrete lines, the
following function follows `encoding/json` when the target is a `*LogRecord`. A token is given by
the JSON document it spells, or marked as text that is not valid JSON. -/

/-- The bytes of a token: text that is not valid JSON, or a valid JSON document. -/
inductive JSONLine where
  | invalid (text : String)
  | valid (doc : JSONValue)

/-- The errors of decoding: the two of `encoding/json`, and the error with which
`null.Time.UnmarshalJSON` rejects a value. -/
inductive JSONError where
  | SyntaxError (text : String)
  | UnmarshalTypeError (field : String)
  | TimeError (text : String)
  deriving DecidableEq

/-- Case folding of one character of a member name: letters compare without regard to case, and
the long s and the Kelvin sign count as `s` and `k`. -/
def foldChar (c : Char) : Char :=
  if c = Char.ofNat 0x17F then 's'
  else if c = Char.ofNat 0x212A then 'k'
  else c.toLower

/-- Whether the member name `key` selects the field with the (lower-case) tag `tag`:
`encoding/json` accepts the exact name and any name equal to it under case folding. -/
def matchesTag (key tag : String) : Bool := key.data.map foldChar == tag.data

/-- Storing a JSON value into a Go `string`: a string is stored, `null` leaves the target as it
is, anything else is a type error that leaves the target as it is. -/
def storeString (field : String) (v : JSONValue) (old : String) : String × Option JSONError :=
  match v with
  | .string s => (s, none)
  | .null => (old, none)
  | _ => (old, some (.UnmarshalTypeError field))

/-- Storing one entry into a Go map: the entry replaces the one with the same key, if any. -/
def mapInsert (m : List (String × JSONValue)) (key : String) (v : JSONValue) :
    List (String × JSONValue) :=
  m.filter (fun kv => kv.1 ≠ key) ++ [(key, v)]

/-- Storing the members of a JSON object into a Go map, in order. -/
def mapInsertAll (m : List (String × JSONValue)) (members : List (String × JSONValue)) :
    List (String × JSONValue) :=
  members.foldl (fun m kv => mapInsert m kv.1 kv.2) m

/-- What storing one member does to the decoding of the object. -/
inductive Stored where
  /-- The member was stored or skipped. -/
  | done
  /-- A type error: it is saved, the field is skipped, decoding goes on. -/
  | saved (err : JSONError)
  /-- The error of an `UnmarshalJSON` method: decoding stops with it. -/
  | stop (err : JSONError)

/-- Storing one object member into the record: a member whose name selects a field is stored
into that field, any other member is skipped. `validTime` tells whether a string is a timestamp
that `time.Time.UnmarshalJSON` accepts (RFC 3339). -/
def storeMember (validTime : String → Bool) (key : String) (v : JSONValue) (e : LogRecord) :
    LogRecord × Stored :=
  if matchesTag key "level_name" then
    match storeString "level_name" v e.LevelName with
    | (s, none) => ({ e with LevelName := s }, .done)
    | (_, some err) => (e, .saved err)
  else if matchesTag key "datetime" then
    match v with
    | .null => ({ e with DateTime := none }, .done)
    | .string s =>
      if validTime s then ({ e with DateTime := some s }, .done) else (e, .stop (.TimeError s))
    | _ => (e, .stop (.TimeError "not a JSON string"))
  else if matchesTag key "caller" then
    match storeString "caller" v e.Caller with
    | (s, none) => ({ e with Caller := s }, .done)
    | (_, some err) => (e, .saved err)
  else if matchesTag key "message" then
    match storeString "message" v e.Message with
    | (s, none) => ({ e with Message := s }, .done)
    | (_, some err) => (e, .saved err)
  else if matchesTag key "handler" then
    match storeString "handler" v e.Handler with
    | (s, none) => ({ e with Handler := s }, .done)
    | (_, some err) => (e, .saved err)
  else if matchesTag key "connection" then
    match storeString "connection" v e.Connection with
    | (s, none) => ({ e with Connection := s }, .done)
    | (_, some err) => (e, .saved err)
  else if matchesTag key "account" then
    match storeString "account" v e.Account with
    | (s, none) => ({ e with Account := s }, .done)
    | (_, some err) => (e, .saved err)
  else if matchesTag key "context" then
    match v with
    | .object members =>
      ({ e with Context := some (mapInsertAll (e.Context.getD []) members) }, .done)
    | .null => ({ e with Context := none }, .done)
    | _ => (e, .saved (.UnmarshalTypeError "context"))
  else
    (e, .done)

/-- Storing the members of an object in order: the record afterwards, the earliest saved type
error, and the error that stopped the decoding, if one did. -/
def storeMembers (validTime : String → Bool) :
    List (String × JSONValue) → LogRecord → LogRecord × Option JSONError × Option JSONError
  | [], e => (e, none, none)
  | (key, v) :: rest, e =>
    match storeMember validTime key v e with
    | (e, .stop err) => (e, none, some err)
    | (e, .saved err) =>
      match storeMembers validTime rest e with
      | (e, _, stopped) => (e, some err, stopped)
    | (e, .done) => storeMembers validTime rest e

/-- The model of `json.Unmarshal(token, &e)`. Text that is not valid JSON is a syntax error and
leaves the target untouched. An object is stored member by member into the target as it is, so
a field without a member keeps the value it had; the error returned is the one that stopped the
decoding, else the earliest saved type error. `null` is a no-op; any other document is a type
error. -/
def jsonUnmarshal (validTime : String → Bool) (token : JSONLine) (e : LogRecord) :
    LogRecord × Option JSONError :=
  match token with
  | .invalid text => (e, some (.SyntaxError text))
  | .valid (.object members) =>
    match storeMembers validTime members e with
    | (e, saved, stopped) => (e, if stopped.isSome then stopped else saved)
  | .valid .null => (e, none)
  | .valid _ => (e, some (.UnmarshalTypeError "LogRecord"))

end testutil

/-! # Properties -/

namespace logger

/-! ## The client adapter -/

/-- A guarded read `if i < len(args) then f(args[i]) else d` is the optional read of position
`i`, defaulted. -/
theorem guarded_index_eq {α β : Type} (f : α → β) (d : β) (args : List α) (i : Nat) :
    (if h : i < args.length then f args[i] else d) = (args[i]?.map f).getD d := by
  split <;> rename_i h
  · simp [List.getElem?_eq_getElem h]
  · simp [List.getElem?_eq_none (Nat.le_of_not_lt h)]

/-- The request case emits one debug event whose fields are read off the argument list by
position; `body` is kept only when there is no fourth argument. -/
theorem requestCase_eq (Sprint : GoValue → String) (represent : GoValue → FieldValue)
    (m : mgTransportClientAdapter) (sink : List Entry) (args : List GoValue) (body : GoValue) :
    m.requestCase Sprint represent sink args body =
      sink ++ [⟨.debug, m.log, "MG TRANSPORT API Request",
        [⟨"method", .string ((args[0]?.map Sprint).getD "")⟩,
         ⟨"url", .string ((args[1]?.map Sprint).getD "")⟩,
         ⟨"token", .string ((args[2]?.map Sprint).getD "")⟩,
         ⟨"body", represent (args[3]?.getD body)⟩]⟩] := by
  have h3 := guarded_index_eq (fun v : GoValue => v) body args 3
  have hid : Option.map (fun v : GoValue => v) args[3]? = args[3]? := by
    cases args[3]? <;> rfl
  rw [hid] at h3
  unfold mgTransportClientAdapter.requestCase Logger.Debug
  simp only [zapString, Body, HTTPMethodAttr, guarded_index_eq, h3]

/-- Go `Debugf` on the "request" template. -/
theorem Debugf_request_eq (Sprint : GoValue → String)
    (Sprintf : String → List GoValue → String) (represent : GoValue → FieldValue)
    (m : mgTransportClientAdapter) (sink : List Entry) (args : List GoValue) :
    m.Debugf Sprint Sprintf represent sink mgDebugLogReq args =
      .ok (sink ++ [⟨.debug, m.log, "MG TRANSPORT API Request",
        [⟨"method", .string ((args[0]?.map Sprint).getD "")⟩,
         ⟨"url", .string ((args[1]?.map Sprint).getD "")⟩,
         ⟨"token", .string ((args[2]?.map Sprint).getD "")⟩,
         ⟨"body", represent (args[3]?.getD .nil)⟩]⟩]) := by
  have hne : ¬ (mgDebugLogReq = mgDebugLogReqFile) := by decide
  unfold mgTransportClientAdapter.Debugf
  simp only [hne, if_false, if_true, requestCase_eq]

/-- Go `Debugf` on the "request, with file body" template: the placeholder is the body only when
there is no fourth argument. -/
theorem Debugf_file_eq (Sprint : GoValue → String)
    (Sprintf : String → List GoValue → String) (represent : GoValue → FieldValue)
    (m : mgTransportClientAdapter) (sink : List Entry) (args : List GoValue) :
    m.Debugf Sprint Sprintf represent sink mgDebugLogReqFile args =
      .ok (sink ++ [⟨.debug, m.log, "MG TRANSPORT API Request",
        [⟨"method", .string ((args[0]?.map Sprint).getD "")⟩,
         ⟨"url", .string ((args[1]?.map Sprint).getD "")⟩,
         ⟨"token", .string ((args[2]?.map Sprint).getD "")⟩,
         ⟨"body", represent (args[3]?.getD (.str "[file data]"))⟩]⟩]) := by
  unfold mgTransportClientAdapter.Debugf
  simp only [if_true, requestCase_eq]

/-- C3. For the "request" template and every argument list, `Debugf` (and `Printf`) returns
normally having emitted exactly one event: level debug, message "MG TRANSPORT API Request", and
the four fields `method`, `url`, `token`, `body` in this order. `method`, `url` and `token` are
the `fmt.Sprint` strings of the arguments at positions 0, 1, 2, the empty string where the
position is absent; `body` is the field that `Body` makes of the argument at position 3, of nil
where that position is absent, whatever representation `Body` gives a value. Arguments beyond
the fourth do not influence the result. -/
theorem debugf_request_template_event (Sprint : GoValue → String)
    (Sprintf : String → List GoValue → String) (represent : GoValue → FieldValue)
    (m : mgTransportClientAdapter) (sink : List Entry) (args : List GoValue) :
    m.Debugf Sprint Sprintf represent sink "MG TRANSPORT API Request: %s %s %s %v" args =
        .ok (sink ++ [⟨.debug, m.log, "MG TRANSPORT API Request",
          [⟨"method", .string ((args[0]?.map Sprint).getD "")⟩,
           ⟨"url", .string ((args[1]?.map Sprint).getD "")⟩,
           ⟨"token", .string ((args[2]?.map Sprint).getD "")⟩,
           Body represent (args[3]?.getD .nil)]⟩])
      ∧ (Body represent (args[3]?.getD .nil)).key = "body"
      ∧ m.Printf Sprint Sprintf represent sink mgDebugLogReq args =
          m.Debugf Sprint Sprintf represent sink mgDebugLogReq args
      ∧ m.Debugf Sprint Sprintf represent sink mgDebugLogReq (args.take 4) =
          m.Debugf Sprint Sprintf represent sink mgDebugLogReq args := by
  refine ⟨Debugf_request_eq Sprint Sprintf represent m sink args, rfl, rfl, ?_⟩
  rw [Debugf_request_eq, Debugf_request_eq]
  simp [List.getElem?_take]

/-- C1. Evaluation of `Debugf` (and `Printf`) at the "request, with file body" template with a
fourth positional value: the `body` field of the emitted event is the field that `Body` makes of
that value, the bytes handed in by the caller, and not of the placeholder "[file data]"; when
`Body` keeps the value as it is, the field holds the caller's bytes themselves. -/
theorem debugf_file_template_fourth_argument_replaces_placeholder (Sprint : GoValue → String)
    (Sprintf : String → List GoValue → String) (represent : GoValue → FieldValue)
    (m : mgTransportClientAdapter) (sink : List Entry) :
    m.Debugf Sprint Sprintf represent sink "MG TRANSPORT API Request: %s %s %s [file data]"
        [.str "POST", .str "/api/transport/v1/files/upload", .str "secret",
          .bytes [137, 80, 78, 71]] =
        .ok (sink ++ [⟨.debug, m.log, "MG TRANSPORT API Request",
          [⟨"method", .string (Sprint (.str "POST"))⟩,
           ⟨"url", .string (Sprint (.str "/api/transport/v1/files/upload"))⟩,
           ⟨"token", .string (Sprint (.str "secret"))⟩,
           Body represent (.bytes [137, 80, 78, 71])]⟩])
      ∧ m.Debugf Sprint Sprintf FieldValue.any sink
          "MG TRANSPORT API Request: %s %s %s [file data]"
        [.str "POST", .str "/api/transport/v1/files/upload", .str "secret",
          .bytes [137, 80, 78, 71]] =
        .ok (sink ++ [⟨.debug, m.log, "MG TRANSPORT API Request",
          [⟨"method", .string (Sprint (.str "POST"))⟩,
           ⟨"url", .string (Sprint (.str "/api/transport/v1/files/upload"))⟩,
           ⟨"token", .string (Sprint (.str "secret"))⟩,
           ⟨"body", .any (.bytes [137, 80, 78, 71])⟩]⟩])
      ∧ m.Printf Sprint Sprintf represent sink mgDebugLogReqFile
          [.str "POST", .str "/api/transport/v1/files/upload", .str "secret",
            .bytes [137, 80, 78, 71]] =
        m.Debugf Sprint Sprintf represent sink mgDebugLogReqFile
          [.str "POST", .str "/api/transport/v1/files/upload", .str "secret",
            .bytes [137, 80, 78, 71]]
      ∧ Body FieldValue.any (.bytes [137, 80, 78, 71])
          ≠ Body FieldValue.any (.str "[file data]") := by
  refine ⟨?_, ?_, rfl, by decide⟩
  · exact Debugf_file_eq Sprint Sprintf represent m sink _
  · exact Debugf_file_eq Sprint Sprintf FieldValue.any m sink _

/-- C2. Evaluation of `Debugf` (and `Printf`) at the "response" template with an empty argument
list: the call panics on `args[0]` (index 0 out of range of length 0) and emits no event. For the
two request templates every argument list, the empty one included, yields exactly one event. -/
theorem debugf_response_template_without_arguments_panics (Sprint : GoValue → String)
    (Sprintf : String → List GoValue → String) (represent : GoValue → FieldValue)
    (m : mgTransportClientAdapter) (sink : List Entry) :
    m.Debugf Sprint Sprintf represent sink "MG TRANSPORT API Response: %s" [] =
        .error (.indexOutOfRange 0 0)
      ∧ m.Printf Sprint Sprintf represent sink "MG TRANSPORT API Response: %s" [] =
        .error (.indexOutOfRange 0 0)
      ∧ (∀ args, ∃ e,
          m.Debugf Sprint Sprintf represent sink mgDebugLogReq args = .ok (sink ++ [e]))
      ∧ (∀ args, ∃ e,
          m.Debugf Sprint Sprintf represent sink mgDebugLogReqFile args = .ok (sink ++ [e])) := by
  refine ⟨rfl, rfl, ?_, ?_⟩
  · intro args
    exact ⟨_, Debugf_request_eq Sprint Sprintf represent m sink args⟩
  · intro args
    exact ⟨_, Debugf_file_eq Sprint Sprintf represent m sink args⟩

/-! ## The Gin middleware -/

/-- The context the middleware hands to the rest of the handler chain. -/
theorem handlerContext_eq (StreamIDAttr : String) (streamID : String) (derived : Logger)
    (c : Context) :
    MustGet ((c.Set StreamIDAttr (.str streamID)).Set "logger" (.logger derived)) = .ok derived
      ∧ (StreamIDAttr ≠ "logger" →
          ((c.Set StreamIDAttr (.str streamID)).Set "logger" (.logger derived)).Get StreamIDAttr
            = some (.str streamID)) := by
  constructor
  · simp [MustGet, Context.MustGet, Context.Get, Context.Set]
  · intro h
    simp [Context.Get, Context.Set, h, Ne.symm h]

/-- The middleware, written out: the handler chain runs on the context that carries the
identifier and the derived logger; when it returns, one info event `request` is appended to
the sink it left. -/
theorem GinMiddleware_eq (HandlerAttr StreamIDAttr : String) (StreamID : String → Field)
    (format : Time → String) (streamID : String) (log : Logger)
    (Next : Context → World → Except GoPanic (Context × World)) (c : Context) (w : World) :
    GinMiddleware HandlerAttr StreamIDAttr StreamID format streamID log Next c w =
      match Next ((c.Set StreamIDAttr (.str streamID)).Set "logger"
          (.logger (log.With [StreamID streamID]))) w with
      | .error p => .error p
      | .ok (c2, w2) =>
        .ok (c2, { w2 with sink := w2.sink ++ [⟨.info, log.With [StreamID streamID], "request",
          [⟨HandlerAttr, .string "GIN"⟩,
           ⟨"startTime", .string (format w.now)⟩,
           ⟨"endTime", .string (format w2.now)⟩,
           ⟨"latency", .any (.duration (Int.tdiv (w2.now.Sub w.now) 1000000))⟩,
           ⟨"remoteAddress", .string c2.ClientIP⟩,
           ⟨"method", .string c2.Request.Method⟩,
           ⟨"path", .string (if c.Request.RawQuery = "" then c.Request.Path
              else c.Request.Path ++ "?" ++ c.Request.RawQuery)⟩,
           ⟨"bodySize", .int c2.WriterSize⟩]⟩] }) := by
  unfold GinMiddleware
  simp only [Logger.Info, zapString, zapAny, zapInt, HTTPMethodAttr, Millisecond]
  split
  · rfl
  · by_cases hq : c.Request.RawQuery = ""
    · simp [hq, Context.Set]
    · simp [hq, Context.Set]

/-- When the middleware returns, the sink ends with the summary event written out in
`GinMiddleware_eq`, and the clock is where the handler chain left it. -/
theorem GinMiddleware_ok (HandlerAttr StreamIDAttr : String) (StreamID : String → Field)
    (format : Time → String) (streamID : String) (log : Logger)
    (Next : Context → World → Except GoPanic (Context × World)) (c c' : Context) (w w' : World)
    (h : GinMiddleware HandlerAttr StreamIDAttr StreamID format streamID log Next c w
      = .ok (c', w')) :
    ∃ sink, w'.sink = sink ++ [⟨.info, log.With [StreamID streamID], "request",
          [⟨HandlerAttr, .string "GIN"⟩,
           ⟨"startTime", .string (format w.now)⟩,
           ⟨"endTime", .string (format w'.now)⟩,
           ⟨"latency", .any (.duration (Int.tdiv (w'.now.Sub w.now) 1000000))⟩,
           ⟨"remoteAddress", .string c'.ClientIP⟩,
           ⟨"method", .string c'.Request.Method⟩,
           ⟨"path", .string (if c.Request.RawQuery = "" then c.Request.Path
              else c.Request.Path ++ "?" ++ c.Request.RawQuery)⟩,
           ⟨"bodySize", .int c'.WriterSize⟩]⟩] := by
  rw [GinMiddleware_eq] at h
  split at h
  · exact absurd h (by simp)
  · rename_i c2 w2 _
    simp only [Except.ok.injEq, Prod.mk.injEq] at h
    obtain ⟨hc, hw⟩ := h
    subst hc
    subst hw
    exact ⟨w2.sink, rfl⟩

/-- Truncating division of a non-negative duration by a millisecond: the quotient `m` is the
whole number of milliseconds with `m * 1000000 ≤ d < (m + 1) * 1000000`. -/
theorem tdiv_millisecond_bounds (d : Int) (h : 0 ≤ d) :
    Int.tdiv d 1000000 * 1000000 ≤ d ∧ d < (Int.tdiv d 1000000 + 1) * 1000000 := by
  rw [Int.tdiv_eq_ediv h (by norm_num)]
  omega

/-- Go `Sub` is not negative when the first instant is not before the second. -/
theorem Sub_nonneg (t u : Time) (h : u.mono ≤ t.mono) : 0 ≤ t.Sub u := by
  unfold Time.Sub wrapInt64 maxDuration minDuration
  simp only
  split
  · norm_num
  · split
    · omega
    · omega

/-- Go `Sub` is the difference of the readings when that difference fits an `int64`. -/
theorem Sub_eq_sub (t u : Time) (hlo : -(2 ^ 63) ≤ t.mono - u.mono)
    (hhi : t.mono - u.mono < 2 ^ 63) : t.Sub u = t.mono - u.mono := by
  unfold Time.Sub wrapInt64 maxDuration minDuration
  simp only
  split
  · omega
  · split
    · omega
    · omega

/-- C8. Whenever the middleware returns, having read the clock at `start` before the handler
chain and at `end` after it, the summary event carries at position 3 the field `latency` whose
value is the duration `end.Sub(start)` divided by 1,000,000 with truncation. When `end` is not
before `start`, this value `m` satisfies `m * 1000000 ≤ end.Sub(start) < (m + 1) * 1000000`.
`end.Sub(start)` is the difference of the two nanosecond readings whenever that difference fits
an `int64`. -/
theorem gin_latency_truncated_milliseconds (HandlerAttr StreamIDAttr : String)
    (StreamID : String → Field) (format : Time → String) (streamID : String) (log : Logger)
    (Next : Context → World → Except GoPanic (Context × World)) (c c' : Context) (w w' : World)
    (h : GinMiddleware HandlerAttr StreamIDAttr StreamID format streamID log Next c w
      = .ok (c', w')) :
    ∃ sink e m, w'.sink = sink ++ [e] ∧ e.level = .info ∧ e.msg = "request"
      ∧ e.fields[3]? = some ⟨"latency", .any (.duration m)⟩
      ∧ m = Int.tdiv (w'.now.Sub w.now) 1000000
      ∧ (w.now.mono ≤ w'.now.mono →
          m * 1000000 ≤ w'.now.Sub w.now ∧ w'.now.Sub w.now < (m + 1) * 1000000)
      ∧ (-(2 ^ 63) ≤ w'.now.mono - w.now.mono → w'.now.mono - w.now.mono < 2 ^ 63 →
          w'.now.Sub w.now = w'.now.mono - w.now.mono) := by
  obtain ⟨sink, hs⟩ := GinMiddleware_ok _ _ _ _ _ _ _ _ _ _ _ h
  refine ⟨sink, _, _, hs, rfl, rfl, rfl, rfl, ?_, ?_⟩
  · intro hord
    exact tdiv_millisecond_bounds _ (Sub_nonneg _ _ hord)
  · intro hlo hhi
    exact Sub_eq_sub _ _ hlo hhi

/-- C8, at a request whose handler chain takes 3.5 ms: the latency is 3. -/
theorem gin_latency_truncated_milliseconds_witness :
    GinMiddleware "handler" "streamId" (zapString "streamId") (fun t => toString t.wall) "id-1"
        ⟨"base", []⟩ (fun c w => .ok (c, { w with now := ⟨0, 3501000⟩ }))
        ⟨⟨"/ping", "", "GET"⟩, [], "10.0.0.1", 0⟩ ⟨⟨0, 1000⟩, []⟩
      = .ok (⟨⟨"/ping", "", "GET"⟩,
          [("logger", .logger ⟨"base", [zapString "streamId" "id-1"]⟩),
            ("streamId", .str "id-1")], "10.0.0.1", 0⟩,
          ⟨⟨0, 3501000⟩, [⟨.info, ⟨"base", [zapString "streamId" "id-1"]⟩, "request",
            [zapString "handler" "GIN", zapString "startTime" "0", zapString "endTime" "0",
              zapAny "latency" (.duration 3), zapString "remoteAddress" "10.0.0.1",
              zapString "method" "GET", zapString "path" "/ping", zapInt "bodySize" 0]⟩]⟩)
    ∧ ∃ sink e m, (World.mk ⟨0, 3501000⟩ [⟨.info, ⟨"base", [zapString "streamId" "id-1"]⟩,
          "request",
            [zapString "handler" "GIN", zapString "startTime" "0", zapString "endTime" "0",
              zapAny "latency" (.duration 3), zapString "remoteAddress" "10.0.0.1",
              zapString "method" "GET", zapString "path" "/ping", zapInt "bodySize" 0]⟩]).sink
          = sink ++ [e] ∧ e.level = .info ∧ e.msg = "request"
      ∧ e.fields[3]? = some ⟨"latency", .any (.duration m)⟩
      ∧ m = Int.tdiv ((Time.mk 0 3501000).Sub ⟨0, 1000⟩) 1000000
      ∧ ((1000 : Int) ≤ 3501000 →
          m * 1000000 ≤ (Time.mk 0 3501000).Sub ⟨0, 1000⟩
            ∧ (Time.mk 0 3501000).Sub ⟨0, 1000⟩ < (m + 1) * 1000000)
      ∧ (-(2 ^ 63) ≤ (3501000 : Int) - 1000 → (3501000 : Int) - 1000 < 2 ^ 63 →
          (Time.mk 0 3501000).Sub ⟨0, 1000⟩ = 3501000 - 1000) :=
  ⟨rfl, gin_latency_truncated_milliseconds "handler" "streamId" (zapString "streamId")
    (fun t => toString t.wall) "id-1" ⟨"base", []⟩
    (fun c w => .ok (c, { w with now := ⟨0, 3501000⟩ }))
    ⟨⟨"/ping", "", "GET"⟩, [], "10.0.0.1", 0⟩ _ ⟨⟨0, 1000⟩, []⟩ _ rfl⟩

/-- C6, as stated, fails. A request for `/a%3Fb` has the URL path `/a?b` and an empty raw
query; the middleware logs the path as it is, so the `path` field of the summary event is
`/a?b`, which contains `?`. -/
theorem gin_path_with_empty_query_may_contain_question_mark :
    GinMiddleware "handler" "streamId" (zapString "streamId") (fun t => toString t.wall) "id-1"
        ⟨"base", []⟩ (fun c w => .ok (c, w))
        ⟨⟨"/a?b", "", "GET"⟩, [], "10.0.0.1", 0⟩ ⟨⟨0, 0⟩, []⟩
      = .ok (⟨⟨"/a?b", "", "GET"⟩,
          [("logger", .logger ⟨"base", [zapString "streamId" "id-1"]⟩),
            ("streamId", .str "id-1")], "10.0.0.1", 0⟩,
          ⟨⟨0, 0⟩, [⟨.info, ⟨"base", [zapString "streamId" "id-1"]⟩, "request",
            [zapString "handler" "GIN", zapString "startTime" "0", zapString "endTime" "0",
              zapAny "latency" (.duration 0), zapString "remoteAddress" "10.0.0.1",
              zapString "method" "GET", zapString "path" "/a?b", zapInt "bodySize" 0]⟩]⟩)
    ∧ (Request.mk "/a?b" "" "GET").RawQuery = ""
    ∧ '?' ∈ "/a?b".toList :=
  ⟨rfl, rfl, by decide⟩

/-- C6, amended. Whenever the middleware returns for a request with URL path `p` and raw query
`q`, the summary event carries at position 6 the field `path`; its value is `p` itself, with
nothing appended, if `q` is empty, and `p` followed by `?` followed by `q` if `q` is not
empty. -/
theorem gin_path_field (HandlerAttr StreamIDAttr : String)
    (StreamID : String → Field) (format : Time → String) (streamID : String) (log : Logger)
    (Next : Context → World → Except GoPanic (Context × World)) (c c' : Context) (w w' : World)
    (h : GinMiddleware HandlerAttr StreamIDAttr StreamID format streamID log Next c w
      = .ok (c', w')) :
    ∃ sink e, w'.sink = sink ++ [e] ∧ e.level = .info ∧ e.msg = "request"
      ∧ (c.Request.RawQuery = "" → e.fields[6]? = some ⟨"path", .string c.Request.Path⟩)
      ∧ (c.Request.RawQuery ≠ "" →
          e.fields[6]? = some ⟨"path", .string (c.Request.Path ++ "?" ++ c.Request.RawQuery)⟩) := by
  obtain ⟨sink, hs⟩ := GinMiddleware_ok _ _ _ _ _ _ _ _ _ _ _ h
  refine ⟨sink, _, hs, rfl, rfl, ?_, ?_⟩
  · intro hq
    simp [hq]
  · intro hq
    simp [hq]

/-- C6, amended, at a request for `/search?q=1&page=2`. -/
theorem gin_path_field_witness :
    GinMiddleware "handler" "streamId" (zapString "streamId") (fun t => toString t.wall) "id-1"
        ⟨"base", []⟩ (fun c w => .ok (c, w))
        ⟨⟨"/search", "q=1&page=2", "GET"⟩, [], "10.0.0.1", 0⟩ ⟨⟨0, 0⟩, []⟩
      = .ok (⟨⟨"/search", "q=1&page=2", "GET"⟩,
          [("logger", .logger ⟨"base", [zapString "streamId" "id-1"]⟩),
            ("streamId", .str "id-1")], "10.0.0.1", 0⟩,
          ⟨⟨0, 0⟩, [⟨.info, ⟨"base", [zapString "streamId" "id-1"]⟩, "request",
            [zapString "handler" "GIN", zapString "startTime" "0", zapString "endTime" "0",
              zapAny "latency" (.duration 0), zapString "remoteAddress" "10.0.0.1",
              zapString "method" "GET", zapString "path" "/search?q=1&page=2",
              zapInt "bodySize" 0]⟩]⟩)
    ∧ ∃ sink e, (World.mk ⟨0, 0⟩ [⟨.info, ⟨"base", [zapString "streamId" "id-1"]⟩, "request",
            [zapString "handler" "GIN", zapString "startTime" "0", zapString "endTime" "0",
              zapAny "latency" (.duration 0), zapString "remoteAddress" "10.0.0.1",
              zapString "method" "GET", zapString "path" "/search?q=1&page=2",
              zapInt "bodySize" 0]⟩]).sink = sink ++ [e] ∧ e.level = .info ∧ e.msg = "request"
      ∧ ((Request.mk "/search" "q=1&page=2" "GET").RawQuery = "" →
          e.fields[6]? = some ⟨"path", .string "/search"⟩)
      ∧ ((Request.mk "/search" "q=1&page=2" "GET").RawQuery ≠ "" →
          e.fields[6]? = some ⟨"path", .string ("/search" ++ "?" ++ "q=1&page=2")⟩) :=
  ⟨rfl, gin_path_field "handler" "streamId" (zapString "streamId")
    (fun t => toString t.wall) "id-1" ⟨"base", []⟩ (fun c w => .ok (c, w))
    ⟨⟨"/search", "q=1&page=2", "GET"⟩, [], "10.0.0.1", 0⟩ _ ⟨⟨0, 0⟩, []⟩ _ rfl⟩

/-- C7. Let the derived logger be the base logger with the field `StreamID(streamID)` of the
freshly generated identifier. The handler chain is run on a context from which `MustGet`
returns the derived logger and on which the identifier is stored under `StreamIDAttr` (a key
other than "logger"); if the chain panics so does the middleware, and if it returns the
middleware returns having appended exactly one event to the sink the chain left: level info,
message "request", emitted on that same derived logger. -/
theorem gin_handler_logger_is_summary_logger (HandlerAttr StreamIDAttr : String)
    (StreamID : String → Field) (format : Time → String) (streamID : String) (log : Logger)
    (c : Context) (w : World) (hkey : StreamIDAttr ≠ "logger") :
    ∃ c1, MustGet c1 = .ok (log.With [StreamID streamID])
      ∧ c1.Get StreamIDAttr = some (.str streamID)
      ∧ ∀ Next : Context → World → Except GoPanic (Context × World),
          match Next c1 w with
          | .error p =>
            GinMiddleware HandlerAttr StreamIDAttr StreamID format streamID log Next c w
              = .error p
          | .ok (c2, w2) =>
            ∃ fields,
              GinMiddleware HandlerAttr StreamIDAttr StreamID format streamID log Next c w
                = .ok (c2, { w2 with sink := w2.sink ++
                    [⟨.info, log.With [StreamID streamID], "request", fields⟩] }) := by
  refine ⟨(c.Set StreamIDAttr (.str streamID)).Set "logger"
    (.logger (log.With [StreamID streamID])), (handlerContext_eq _ _ _ _).1,
    (handlerContext_eq _ _ _ _).2 hkey, ?_⟩
  intro Next
  rw [GinMiddleware_eq]
  split
  · rename_i p hp
    simp [hp]
  · rename_i c2 w2 hp
    simp [hp]

/-- C7, for the key "streamId" and the identifier "id-1". -/
theorem gin_handler_logger_is_summary_logger_witness :
    "streamId" ≠ "logger" ∧
    ∃ c1, MustGet c1 = .ok (Logger.With ⟨"base", []⟩ [zapString "streamId" "id-1"])
      ∧ c1.Get "streamId" = some (.str "id-1")
      ∧ ∀ Next : Context → World → Except GoPanic (Context × World),
          match Next c1 ⟨⟨0, 0⟩, []⟩ with
          | .error p =>
            GinMiddleware "handler" "streamId" (zapString "streamId") (fun t => toString t.wall)
              "id-1" ⟨"base", []⟩ Next ⟨⟨"/ping", "", "GET"⟩, [], "10.0.0.1", 0⟩ ⟨⟨0, 0⟩, []⟩
              = .error p
          | .ok (c2, w2) =>
            ∃ fields,
              GinMiddleware "handler" "streamId" (zapString "streamId")
                (fun t => toString t.wall) "id-1" ⟨"base", []⟩ Next
                ⟨⟨"/ping", "", "GET"⟩, [], "10.0.0.1", 0⟩ ⟨⟨0, 0⟩, []⟩
                = .ok (c2, { w2 with sink := w2.sink ++
                    [⟨.info, Logger.With ⟨"base", []⟩ [zapString "streamId" "id-1"], "request",
                      fields⟩] }) :=
  ⟨by decide, gin_handler_logger_is_summary_logger "handler" "streamId" (zapString "streamId")
    (fun t => toString t.wall) "id-1" ⟨"base", []⟩ ⟨⟨"/ping", "", "GET"⟩, [], "10.0.0.1", 0⟩
    ⟨⟨0, 0⟩, []⟩ (by decide)⟩

end logger

namespace core

/-! ## The `Logger` of package `core` -/

/-- Locking and then unlocking a free mutex leaves the table of mutexes as it was. -/
theorem set_true_set_false (ms : List Bool) (m : Nat) (h : ms[m]? = some false) :
    (ms.set m true).set m false = ms := by
  apply List.ext_getElem?
  intro k
  rw [List.set_set, List.getElem?_set]
  split
  · rename_i hk
    subst hk
    split
    · exact h.symm
    · rename_i hlen
      rw [List.getElem?_eq_none (Nat.le_of_not_lt hlen)] at h
      exact absurd h (by simp)
  · rfl

/-- A locked mutex reads as locked. -/
theorem getElem_set_true (ms : List Bool) (m : Nat) (h : ms[m]? = some false) :
    (ms.set m true)[m]? = some true := by
  rw [List.getElem?_set]
  have hlen : m < ms.length := by
    by_contra hn
    rw [List.getElem?_eq_none (Nat.le_of_not_lt hn)] at h
    exact absurd h (by simp)
  simp [hlen]

/-- C10, as stated, fails for `Fatal` (and `Fatalf`). On a logger in exclusive mode whose guard
is free, `Fatal` acquires the guard and calls the delegate, which ends the process with
`os.Exit(1)`: the deferred `unlock` never runs, no `Unlock` event follows, and the guard is left
held, not free. -/
theorem fatal_leaves_guard_held :
    Logger.Fatal ⟨[⟨"mg", some 0⟩], [false], []⟩ 0 [.str "no configuration"]
      = (⟨[⟨"mg", some 0⟩], [true],
          [.Lock 0, .call "mg" .Fatal none [.str "no configuration"]]⟩, .exited 1)
    ∧ Logger.Fatalf ⟨[⟨"mg", some 0⟩], [false], []⟩ 0 "no %s" [.str "configuration"]
      = (⟨[⟨"mg", some 0⟩], [true],
          [.Lock 0, .call "mg" .Fatalf (some "no %s") [.str "configuration"]]⟩, .exited 1) :=
  ⟨rfl, rfl⟩

/-- C10, amended. No level operation changes a `Logger` object, so a guard once installed stays
installed. Called on a logger whose guard `m` is installed and free:
* each of the fourteen operations other than `Fatal` and `Fatalf` acquires the guard, calls the
  delegate and releases the guard, in this order, leaving every mutex as it was (the guard free
  again); `Panic` and `Panicf` end panicking, the others return;
* `Fatal` and `Fatalf` acquire the guard and call the delegate, which exits the process with
  status 1; the guard is not released and stays held.
Called on a logger without guard, every operation only calls the delegate: no lock is acquired
or released and no mutex changes. -/
theorem level_operations_guard (op : Op) (st : State) (l : Nat) (obj : Logger)
    (format : String) (args : List GoValue) (h : st.loggers[l]? = some obj) :
    (Logger.invoke op st l format args).1.loggers = st.loggers
    ∧ (∀ m, obj.mutex = some m → st.mutexes[m]? = some false →
        if op = .Fatal ∨ op = .Fatalf then
          Logger.invoke op st l format args =
            ({ st with
                mutexes := st.mutexes.set m true
                trace := st.trace ++
                  [.Lock m, .call obj.logger op (op.formatArg format) args] }, .exited 1)
          ∧ (st.mutexes.set m true)[m]? = some true
        else
          Logger.invoke op st l format args =
            ({ st with
                trace := st.trace ++
                  [.Lock m, .call obj.logger op (op.formatArg format) args, .Unlock m] },
              if op = .Panic ∨ op = .Panicf then .panicked else .returned))
    ∧ (obj.mutex = none →
        Logger.invoke op st l format args =
          ({ st with trace := st.trace ++ [.call obj.logger op (op.formatArg format) args] },
            if op = .Fatal ∨ op = .Fatalf then .exited 1
            else if op = .Panic ∨ op = .Panicf then .panicked else .returned)) := by
  refine ⟨?_, ?_, ?_⟩
  · cases hm : obj.mutex with
    | none =>
      cases op <;>
        simp [Logger.invoke, Logger.Fatal, Logger.Fatalf, Logger.Panic, Logger.Panicf, Logger.Critical, Logger.Criticalf, Logger.Error, Logger.Errorf, Logger.Warning, Logger.Warningf, Logger.Notice, Logger.Noticef, Logger.Info, Logger.Infof, Logger.Debug, Logger.Debugf, Logger.locked,
          Logger.lock, Logger.unlock, loggingCall, h, hm]
    | some m =>
      cases hf : st.mutexes[m]? with
      | none =>
        cases op <;>
          simp [Logger.invoke, Logger.Fatal, Logger.Fatalf, Logger.Panic, Logger.Panicf, Logger.Critical, Logger.Criticalf, Logger.Error, Logger.Errorf, Logger.Warning, Logger.Warningf, Logger.Notice, Logger.Noticef, Logger.Info, Logger.Infof, Logger.Debug, Logger.Debugf, Logger.locked,
            Logger.lock, Logger.unlock, loggingCall, h, hm, hf]
      | some b =>
        cases b
        · have h1 := getElem_set_true st.mutexes m hf
          cases op <;>
            simp [Logger.invoke, Logger.Fatal, Logger.Fatalf, Logger.Panic, Logger.Panicf, Logger.Critical, Logger.Criticalf, Logger.Error, Logger.Errorf, Logger.Warning, Logger.Warningf, Logger.Notice, Logger.Noticef, Logger.Info, Logger.Infof, Logger.Debug, Logger.Debugf, Logger.locked,
              Logger.lock, Logger.unlock, loggingCall, h, hm, hf, h1]
        · cases op <;>
            simp [Logger.invoke, Logger.Fatal, Logger.Fatalf, Logger.Panic, Logger.Panicf, Logger.Critical, Logger.Criticalf, Logger.Error, Logger.Errorf, Logger.Warning, Logger.Warningf, Logger.Notice, Logger.Noticef, Logger.Info, Logger.Infof, Logger.Debug, Logger.Debugf, Logger.locked,
              Logger.lock, Logger.unlock, loggingCall, h, hm, hf]
  · intro m hm hf
    have h1 := getElem_set_true st.mutexes m hf
    have h2 := set_true_set_false st.mutexes m hf
    cases op <;>
      simp [Logger.invoke, Logger.Fatal, Logger.Fatalf, Logger.Panic, Logger.Panicf, Logger.Critical, Logger.Criticalf, Logger.Error, Logger.Errorf, Logger.Warning, Logger.Warningf, Logger.Notice, Logger.Noticef, Logger.Info, Logger.Infof, Logger.Debug, Logger.Debugf, Logger.locked,
        Logger.lock, Logger.unlock, loggingCall, Op.formatArg, h, hm, hf, h1, h2]
  · intro hm
    cases op <;>
      simp [Logger.invoke, Logger.Fatal, Logger.Fatalf, Logger.Panic, Logger.Panicf, Logger.Critical, Logger.Criticalf, Logger.Error, Logger.Errorf, Logger.Warning, Logger.Warningf, Logger.Notice, Logger.Noticef, Logger.Info, Logger.Infof, Logger.Debug, Logger.Debugf, Logger.locked,
        Logger.lock, Logger.unlock, loggingCall, Op.formatArg, h, hm]

/-- C10, amended, for `Panic` on a logger in exclusive mode with a free guard: the guard is
taken, the delegate is called, the guard is released, and the call ends panicking. -/
theorem level_operations_guard_witness :
    (State.mk [⟨"mg", some 0⟩] [false] []).loggers[0]? = some ⟨"mg", some 0⟩
    ∧ Logger.invoke .Panic ⟨[⟨"mg", some 0⟩], [false], []⟩ 0 "" [.str "broken"]
      = (⟨[⟨"mg", some 0⟩], [false],
          [.Lock 0, .call "mg" .Panic none [.str "broken"], .Unlock 0]⟩, .panicked) :=
  ⟨rfl, (level_operations_guard .Panic ⟨[⟨"mg", some 0⟩], [false], []⟩ 0 ⟨"mg", some 0⟩ ""
    [.str "broken"] rfl).2.1 0 rfl rfl⟩

/-- C9. `Exclusive` called on a logger `l` returns normally and returns `l` itself. In the new
state `l` has the same underlying logging handle and a guard `m` installed. If `l` already had a
guard, `m` is that guard and nothing in the state changes; if it had none, `m` is a newly
allocated, unlocked mutex and the existing mutexes are untouched. No other logger is modified,
no event happens, and calling `Exclusive` again on the result changes nothing and returns `l`
again. -/
theorem exclusive_idempotent_same_logger (st : State) (l : Nat) (obj : Logger)
    (h : st.loggers[l]? = some obj) :
    ∃ st' m, Logger.Exclusive st l = .ok (st', l)
      ∧ st'.loggers[l]? = some ⟨obj.logger, some m⟩
      ∧ (∀ m0, obj.mutex = some m0 → m = m0 ∧ st' = st)
      ∧ (obj.mutex = none → m = st.mutexes.length ∧ st'.mutexes = st.mutexes ++ [false])
      ∧ (∀ k, k ≠ l → st'.loggers[k]? = st.loggers[k]?)
      ∧ st'.trace = st.trace
      ∧ Logger.Exclusive st' l = .ok (st', l) := by
  have hlen : l < st.loggers.length := by
    by_contra hn
    rw [List.getElem?_eq_none (Nat.le_of_not_lt hn)] at h
    exact absurd h (by simp)
  cases hm : obj.mutex with
  | some m0 =>
    have hobj : obj = ⟨obj.logger, some m0⟩ := by
      cases obj
      simp_all
    refine ⟨st, m0, ?_, ?_, ?_, ?_, ?_, rfl, ?_⟩
    · simp [Logger.Exclusive, h, hm]
    · rw [h, ← hobj]
    · intro m1 h1
      simp at h1
      exact ⟨h1, rfl⟩
    · intro h1
      simp at h1
    · intro k _
      rfl
    · simp [Logger.Exclusive, h, hm]
  | none =>
    refine ⟨{ st with mutexes := st.mutexes ++ [false],
                      loggers := st.loggers.set l ⟨obj.logger, some st.mutexes.length⟩ },
      st.mutexes.length, ?_, ?_, ?_, ?_, ?_, rfl, ?_⟩
    · simp [Logger.Exclusive, h, hm]
    · simp [List.getElem?_set, hlen]
    · intro m0 h0
      simp at h0
    · intro _
      exact ⟨rfl, rfl⟩
    · intro k hk
      simp [List.getElem?_set, Ne.symm hk]
    · simp [Logger.Exclusive, List.getElem?_set, hlen]

/-- C9, on a state with one logger that has no guard yet. -/
theorem exclusive_idempotent_same_logger_witness :
    (State.mk [⟨"mg", none⟩] [] []).loggers[0]? = some ⟨"mg", none⟩
    ∧ ∃ st' m, Logger.Exclusive ⟨[⟨"mg", none⟩], [], []⟩ 0 = .ok (st', 0)
      ∧ st'.loggers[0]? = some ⟨"mg", some m⟩
      ∧ (∀ m0, (Logger.mk "mg" none).mutex = some m0 → m = m0 ∧ st' = ⟨[⟨"mg", none⟩], [], []⟩)
      ∧ ((Logger.mk "mg" none).mutex = none →
          m = (State.mk [⟨"mg", none⟩] [] []).mutexes.length
            ∧ st'.mutexes = (State.mk [⟨"mg", none⟩] [] []).mutexes ++ [false])
      ∧ (∀ k, k ≠ 0 → st'.loggers[k]? = (State.mk [⟨"mg", none⟩] [] []).loggers[k]?)
      ∧ st'.trace = (State.mk [⟨"mg", none⟩] [] []).trace
      ∧ Logger.Exclusive st' 0 = .ok (st', 0) :=
  ⟨rfl, exclusive_idempotent_same_logger ⟨[⟨"mg", none⟩], [], []⟩ 0 ⟨"mg", none⟩ rfl⟩

end core

namespace bufio

/-! ## The line scanner -/

/-- A line that fits the buffer is delivered, ahead of what the scanner delivers of the lines
after it. -/
theorem scanTokens_cons_fit {Text : Type} (l : Line Text) (rest : List (Line Text))
    (hfit : l.size ≤ MaxScanTokenSize) :
    scanTokens (l :: rest) = (l.text :: (scanTokens rest).1, (scanTokens rest).2) := by
  show (if l.size ≤ MaxScanTokenSize then
      (l.text :: (scanTokens rest).1, (scanTokens rest).2) else ([], some l.head)) = _
  rw [if_pos hfit]

/-- Lines that fit the buffer are delivered in order, ahead of what the scanner delivers of the
lines after them. -/
theorem scanTokens_append {Text : Type} (pre rest : List (Line Text))
    (hfit : ∀ l ∈ pre, l.size ≤ MaxScanTokenSize) :
    scanTokens (pre ++ rest) =
      (pre.map (fun l => l.text) ++ (scanTokens rest).1, (scanTokens rest).2) := by
  induction pre with
  | nil => simp
  | cons l pre ih =>
    have h1 : l.size ≤ MaxScanTokenSize := hfit l (by simp)
    have h2 : ∀ x ∈ pre, x.size ≤ MaxScanTokenSize := fun x hx => hfit x (by simp [hx])
    rw [List.cons_append, scanTokens_cons_fit l _ h1, ih h2]
    rfl

/-- Lines that all fit the buffer are all delivered, and nothing is left behind. -/
theorem scanTokens_all_fit {Text : Type} (lines : List (Line Text))
    (hfit : ∀ l ∈ lines, l.size ≤ MaxScanTokenSize) :
    scanTokens lines = (lines.map (fun l => l.text), none) := by
  have h := scanTokens_append lines [] hfit
  simpa [scanTokens] using h

end bufio

namespace testutil

/-! ## The JSON record scanner -/

/-- The loop of `ScanAll` is the loop `for s.r.Scan()` over `bufio.Scanner.Scan`: it ends when
`Scan` reports false, and otherwise decodes the token into a fresh record, returning on an
error and going round again with the record appended. -/
theorem scanAllLoop_eq_Scan {Text E : Type}
    (Unmarshal : Text → LogRecord → LogRecord × Option E) (r : bufio.Scanner Text)
    (entries : List LogRecord) :
    JSONRecordScanner.scanAllLoop Unmarshal r.late r.tokens entries =
      match r.Scan with
      | (r, none) => (r, entries, none)
      | (r, some token) =>
        match Unmarshal token LogRecord.zero with
        | (_, some err) => (r, entries, some (.json err))
        | (entry, none) =>
          JSONRecordScanner.scanAllLoop Unmarshal r.late r.tokens (entries ++ [entry]) := by
  cases r with
  | mk tokens late =>
    cases tokens with
    | nil => rfl
    | cons token rest => rfl

/-- The loop of `ScanAll` over tokens that all decode: every token is consumed and its record
appended; the scanner has reported false. -/
theorem scanAllLoop_all_decode {Text E : Type}
    (Unmarshal : Text → LogRecord → LogRecord × Option E) (late : Option Text)
    (tokens : List Text) :
    ∀ entries : List LogRecord,
      (∀ t ∈ tokens, (Unmarshal t LogRecord.zero).2 = none) →
      JSONRecordScanner.scanAllLoop Unmarshal late tokens entries =
        (⟨late.toList, none⟩,
          entries ++ tokens.map (fun t => (Unmarshal t LogRecord.zero).1), none) := by
  induction tokens with
  | nil =>
    intro entries _
    simp [JSONRecordScanner.scanAllLoop]
  | cons token rest ih =>
    intro entries hall
    have h1 : (Unmarshal token LogRecord.zero).2 = none := hall token (by simp)
    have h2 : ∀ t ∈ rest, (Unmarshal t LogRecord.zero).2 = none :=
      fun t ht => hall t (by simp [ht])
    unfold JSONRecordScanner.scanAllLoop
    cases hu : Unmarshal token LogRecord.zero with
    | mk rec err =>
      rw [hu] at h1
      simp only at h1
      subst h1
      simp only [hu]
      rw [ih _ h2]
      simp [hu]

/-- The loop of `ScanAll` over tokens of which `bad` is the first that fails to decode: it stops
there, having appended the records of the tokens before it, and returns the error of `bad`. -/
theorem scanAllLoop_first_failure {Text E : Type}
    (Unmarshal : Text → LogRecord → LogRecord × Option E) (late : Option Text)
    (pre : List Text) (bad : Text) (post : List Text) (err : E)
    (hbad : (Unmarshal bad LogRecord.zero).2 = some err) :
    ∀ entries : List LogRecord,
      (∀ t ∈ pre, (Unmarshal t LogRecord.zero).2 = none) →
      JSONRecordScanner.scanAllLoop Unmarshal late (pre ++ bad :: post) entries =
        (⟨post, late⟩, entries ++ pre.map (fun t => (Unmarshal t LogRecord.zero).1),
          some (.json err)) := by
  induction pre with
  | nil =>
    intro entries _
    simp only [List.nil_append, List.map_nil, List.append_nil]
    unfold JSONRecordScanner.scanAllLoop
    cases hu : Unmarshal bad LogRecord.zero with
    | mk rec e =>
      rw [hu] at hbad
      simp only at hbad
      subst hbad
      simp only [hu]
  | cons token rest ih =>
    intro entries hall
    have h1 : (Unmarshal token LogRecord.zero).2 = none := hall token (by simp)
    have h2 : ∀ t ∈ rest, (Unmarshal t LogRecord.zero).2 = none :=
      fun t ht => hall t (by simp [ht])
    simp only [List.cons_append]
    unfold JSONRecordScanner.scanAllLoop
    cases hu : Unmarshal token LogRecord.zero with
    | mk rec e =>
      rw [hu] at h1
      simp only at h1
      subst h1
      simp only [hu]
      rw [ih _ h2]
      simp [hu]

/-- C4, as stated, fails. On a stream of three lines that all hold valid JSON, the second of
which is a JSON object followed by blanks up to 70000 bytes, the `bufio.Scanner` gives up at the
second line (it is longer than the 64 KiB buffer) and `Scan` reports false; `ScanAll` never looks
at `Err` and returns the record of line 1 alone with a nil error, not the records of all three
lines. -/
theorem scanAll_stops_silently_at_long_line :
    (jsonUnmarshal (fun _ => true) (bufio.Line.text (bufio.line 58 (.valid (.object [("level_name", .string "INFO"), ("message", .string "started"), ("handler", .string "GIN")])) : bufio.Line JSONLine))
        LogRecord.zero).2 = none
    ∧ (jsonUnmarshal (fun _ => true) (bufio.Line.text (⟨70000, .valid (.object [("level_name", .string "DEBUG"), ("message", .string "request")]), .valid (.object [("level_name", .string "DEBUG"), ("message", .string "request")])⟩ : bufio.Line JSONLine))
        LogRecord.zero).2 = none
    ∧ (jsonUnmarshal (fun _ => true) (bufio.Line.text (bufio.line 39 (.valid (.object [("level_name", .string "INFO"), ("message", .string "done")])) : bufio.Line JSONLine))
        LogRecord.zero).2 = none
    ∧ ((NewJSONRecordScanner
        [bufio.line 58 (.valid (.object [("level_name", .string "INFO"), ("message", .string "started"), ("handler", .string "GIN")])),
         ⟨70000, .valid (.object [("level_name", .string "DEBUG"), ("message", .string "request")]), .valid (.object [("level_name", .string "DEBUG"), ("message", .string "request")])⟩,
         bufio.line 39 (.valid (.object [("level_name", .string "INFO"), ("message", .string "done")]))]).ScanAll (jsonUnmarshal (fun _ => true))).2 =
      ([⟨"INFO", none, "", "started", "GIN", "", "", none⟩], none) :=
  ⟨rfl, rfl, rfl, rfl⟩

/-- C4, amended. `ScanAll` always returns. The record of a line is what `json.Unmarshal` makes of
a fresh `LogRecord{}` on the text of that line. Let the scanner read the stream `lines`. If `bad`
is the first line that fails to decode, and it and the lines before it each fit the scanner's
buffer of 64 KiB, `ScanAll` returns the records of the lines before it, in input order, together
with the error of `bad`, and the scanner is left at the lines after `bad`. If every line fits
the buffer and decodes, it returns the records of all lines in input order and no error. In
particular, on five lines of which the first three fit the buffer and the third is the first to
fail, it returns the two records of lines 1 and 2 and the error. -/
theorem scanAll_records_before_first_failure {Text E : Type}
    (Unmarshal : Text → LogRecord → LogRecord × Option E) (s : JSONRecordScanner Text)
    (lines : List (bufio.Line Text)) (hs : s.r = bufio.NewScanner lines) :
    (∀ (pre : List (bufio.Line Text)) (bad : bufio.Line Text) (post : List (bufio.Line Text))
        (err : E),
        lines = pre ++ bad :: post →
        (∀ l ∈ pre, l.size ≤ bufio.MaxScanTokenSize ∧ (Unmarshal l.text LogRecord.zero).2 = none) →
        bad.size ≤ bufio.MaxScanTokenSize →
        (Unmarshal bad.text LogRecord.zero).2 = some err →
        s.ScanAll Unmarshal =
          ({ s with r := bufio.NewScanner post },
            pre.map (fun l => (Unmarshal l.text LogRecord.zero).1), some (.json err)))
    ∧ ((∀ l ∈ lines,
          l.size ≤ bufio.MaxScanTokenSize ∧ (Unmarshal l.text LogRecord.zero).2 = none) →
        s.ScanAll Unmarshal =
          ({ s with r := bufio.NewScanner [] },
            lines.map (fun l => (Unmarshal l.text LogRecord.zero).1), none))
    ∧ (∀ (l1 l2 l3 l4 l5 : bufio.Line Text) (err : E),
        lines = [l1, l2, l3, l4, l5] →
        l1.size ≤ bufio.MaxScanTokenSize → l2.size ≤ bufio.MaxScanTokenSize →
        l3.size ≤ bufio.MaxScanTokenSize →
        (Unmarshal l1.text LogRecord.zero).2 = none →
        (Unmarshal l2.text LogRecord.zero).2 = none →
        (Unmarshal l3.text LogRecord.zero).2 = some err →
        (s.ScanAll Unmarshal).2 =
          ([(Unmarshal l1.text LogRecord.zero).1, (Unmarshal l2.text LogRecord.zero).1],
            some (.json err))) := by
  have first : ∀ (pre : List (bufio.Line Text)) (bad : bufio.Line Text)
      (post : List (bufio.Line Text)) (err : E),
      lines = pre ++ bad :: post →
      (∀ l ∈ pre, l.size ≤ bufio.MaxScanTokenSize ∧ (Unmarshal l.text LogRecord.zero).2 = none) →
      bad.size ≤ bufio.MaxScanTokenSize →
      (Unmarshal bad.text LogRecord.zero).2 = some err →
      s.ScanAll Unmarshal =
        ({ s with r := bufio.NewScanner post },
          pre.map (fun l => (Unmarshal l.text LogRecord.zero).1), some (.json err)) := by
    intro pre bad post err hl hpre hfit hbad
    have htok : bufio.scanTokens lines =
        (pre.map (fun l => l.text) ++ bad.text :: (bufio.scanTokens post).1,
          (bufio.scanTokens post).2) := by
      rw [hl, bufio.scanTokens_append pre (bad :: post) (fun l hl => (hpre l hl).1),
        bufio.scanTokens_cons_fit bad post hfit]
    have hdec : ∀ t ∈ pre.map (fun l => l.text), (Unmarshal t LogRecord.zero).2 = none := by
      intro t ht
      obtain ⟨l, hl, rfl⟩ := List.mem_map.mp ht
      exact (hpre l hl).2
    unfold JSONRecordScanner.ScanAll
    simp only [hs, bufio.NewScanner, htok]
    rw [scanAllLoop_first_failure Unmarshal _ _ bad.text _ err hbad [] hdec]
    simp [List.map_map, Function.comp_def]
  refine ⟨first, ?_, ?_⟩
  · intro hall
    have htok := bufio.scanTokens_all_fit lines (fun l hl => (hall l hl).1)
    have hdec : ∀ t ∈ lines.map (fun l => l.text), (Unmarshal t LogRecord.zero).2 = none := by
      intro t ht
      obtain ⟨l, hl, rfl⟩ := List.mem_map.mp ht
      exact (hall l hl).2
    unfold JSONRecordScanner.ScanAll
    simp only [hs, bufio.NewScanner, htok]
    rw [scanAllLoop_all_decode Unmarshal _ _ [] hdec]
    simp [List.map_map, Function.comp_def, bufio.scanTokens]
  · intro l1 l2 l3 l4 l5 err hl f1 f2 f3 h1 h2 h3
    have hpre : ∀ l ∈ [l1, l2],
        l.size ≤ bufio.MaxScanTokenSize ∧ (Unmarshal l.text LogRecord.zero).2 = none := by
      intro l hl
      simp only [List.mem_cons, List.mem_singleton, List.not_mem_nil, or_false] at hl
      rcases hl with rfl | rfl
      · exact ⟨f1, h1⟩
      · exact ⟨f2, h2⟩
    rw [first [l1, l2] l3 [l4, l5] err (by simp [hl]) hpre f3 h3]
    rfl

/-- C4, amended, on five short lines of which the third is not JSON: the two records of lines 1
and 2 and the syntax error of line 3 are returned. -/
theorem scanAll_records_before_first_failure_witness :
    (NewJSONRecordScanner
        [(bufio.line 58 (.valid (.object [("level_name", .string "INFO"), ("message", .string "started"), ("handler", .string "GIN")])) : bufio.Line JSONLine),
         bufio.line 43 (.valid (.object [("level_name", .string "DEBUG"), ("message", .string "request")])),
         bufio.line 18 (.invalid "level_name: ERROR"),
         bufio.line 39 (.valid (.object [("level_name", .string "INFO"), ("message", .string "done")])),
         bufio.line 38 (.valid (.object [("level_name", .string "INFO"), ("message", .string "bye")]))]).r
      = bufio.NewScanner
        [bufio.line 58 (.valid (.object [("level_name", .string "INFO"), ("message", .string "started"), ("handler", .string "GIN")])),
         bufio.line 43 (.valid (.object [("level_name", .string "DEBUG"), ("message", .string "request")])),
         bufio.line 18 (.invalid "level_name: ERROR"),
         bufio.line 39 (.valid (.object [("level_name", .string "INFO"), ("message", .string "done")])),
         bufio.line 38 (.valid (.object [("level_name", .string "INFO"), ("message", .string "bye")]))]
    ∧ ((NewJSONRecordScanner
        [bufio.line 58 (.valid (.object [("level_name", .string "INFO"), ("message", .string "started"), ("handler", .string "GIN")])),
         bufio.line 43 (.valid (.object [("level_name", .string "DEBUG"), ("message", .string "request")])),
         bufio.line 18 (.invalid "level_name: ERROR"),
         bufio.line 39 (.valid (.object [("level_name", .string "INFO"), ("message", .string "done")])),
         bufio.line 38 (.valid (.object [("level_name", .string "INFO"), ("message", .string "bye")]))]).ScanAll (jsonUnmarshal (fun _ => true))).2 =
      ([⟨"INFO", none, "", "started", "GIN", "", "", none⟩,
        ⟨"DEBUG", none, "", "request", "", "", "", none⟩],
        some (.json (.SyntaxError "level_name: ERROR"))) :=
  ⟨rfl,
    (scanAll_records_before_first_failure (jsonUnmarshal (fun _ => true))
      (NewJSONRecordScanner
        [bufio.line 58 (.valid (.object [("level_name", .string "INFO"), ("message", .string "started"), ("handler", .string "GIN")])),
         bufio.line 43 (.valid (.object [("level_name", .string "DEBUG"), ("message", .string "request")])),
         bufio.line 18 (.invalid "level_name: ERROR"),
         bufio.line 39 (.valid (.object [("level_name", .string "INFO"), ("message", .string "done")])),
         bufio.line 38 (.valid (.object [("level_name", .string "INFO"), ("message", .string "bye")]))]) _ rfl).2.2 _ _ _ _ _ _ rfl (by decide) (by decide) (by decide) rfl rfl rfl⟩

/-- C5. Evaluation of `Scan` on two lines, the first with a `handler` member and the second
without. Both calls return no error and the third call returns `io.EOF`, but after the second
call `Entry()` still shows the handler "GIN" of the first line: `Scan` decodes into the record it
keeps, so a field absent from the line keeps the value of an earlier line. `ScanAll`, which
decodes every line into a fresh record, produces the empty handler for that same line. -/
theorem scan_entry_keeps_fields_of_earlier_lines (validTime : String → Bool) :
    ((NewJSONRecordScanner
        [bufio.line 58 (.valid (.object [("level_name", .string "INFO"), ("message", .string "started"), ("handler", .string "GIN")])),
         bufio.line 43 (.valid (.object [("level_name", .string "DEBUG"), ("message", .string "request")]))]).Scan (jsonUnmarshal validTime)).2 = none
    ∧ ((((NewJSONRecordScanner
        [bufio.line 58 (.valid (.object [("level_name", .string "INFO"), ("message", .string "started"), ("handler", .string "GIN")])),
         bufio.line 43 (.valid (.object [("level_name", .string "DEBUG"), ("message", .string "request")]))]).Scan (jsonUnmarshal validTime)).1).Scan (jsonUnmarshal validTime)).2 = none
    ∧ ((((NewJSONRecordScanner
        [bufio.line 58 (.valid (.object [("level_name", .string "INFO"), ("message", .string "started"), ("handler", .string "GIN")])),
         bufio.line 43 (.valid (.object [("level_name", .string "DEBUG"), ("message", .string "request")]))]).Scan (jsonUnmarshal validTime)).1).Scan (jsonUnmarshal validTime)).1.Entry
        = ⟨"DEBUG", none, "", "request", "GIN", "", "", none⟩
    ∧ ((NewJSONRecordScanner
        [bufio.line 58 (.valid (.object [("level_name", .string "INFO"), ("message", .string "started"), ("handler", .string "GIN")])),
         bufio.line 43 (.valid (.object [("level_name", .string "DEBUG"), ("message", .string "request")]))]).ScanAll (jsonUnmarshal validTime)).2
        = ([⟨"INFO", none, "", "started", "GIN", "", "", none⟩,
            ⟨"DEBUG", none, "", "request", "", "", "", none⟩], none)
    ∧ ((((((NewJSONRecordScanner
        [bufio.line 58 (.valid (.object [("level_name", .string "INFO"), ("message", .string "started"), ("handler", .string "GIN")])),
         bufio.line 43 (.valid (.object [("level_name", .string "DEBUG"), ("message", .string "request")]))]).Scan (jsonUnmarshal validTime)).1).Scan
              (jsonUnmarshal validTime)).1).Scan (jsonUnmarshal validTime)).2 = some .EOF :=
  ⟨rfl, rfl, rfl, rfl, rfl⟩

end testutil
